import Mathlib

/-!
Verification of the remote-communication core of the ShellTools repository
(`src/shelltools/remote/remote.py`), as a shallow embedding in Lean 4.

The embedding has three independent machines, mirroring the source:

* the front-end `Remote` proxy (`new_request` / `__get_response`), modelled as
  an executable state machine driven by a trace of events (issue a request,
  a message arrives on the pipe from the worker, a waiter coroutine resumes);
* the worker's receive loop (`_RemoteProcess.__handle_rx`), i.e. the
  header-sentinel frame parser feeding an abstract incremental dispatcher,
  plus the supervisor fault path of `_RemoteProcess.__start`;
* the worker's transmit loop (`_RemoteProcess.__handle_tx`), gated by the
  "turn finished" condition broadcast by `__reply_callback`.

Waiter resumptions are atomic: in the source the whole body of
`__get_response` after the polling `while` loop runs without any `await`,
on a single-threaded event loop, so no other coroutine can interleave with it.
-/

namespace ShellTools

/-- A Python exception value crossing the process boundary.  The receive loop
raises `RuntimeError("A corrupted packet has been received. Process will stop.")`;
`generic` stands for any other exception a loop may raise. -/
inductive PyException where
  | runtimeError (msg : String)
  | generic (code : Nat)
  deriving DecidableEq, Repr

/-- A Python value travelling on the `multiprocessing.Pipe` from the worker to
the host: `bytes(reply)` on success, an exception object on the fault path of
`__start`, or `None` (what `coro.exception()` yields for a task that finished
without raising). -/
inductive PipeMsg where
  | pyBytes (b : List Nat)
  | pyNone
  | pyExc (e : PyException)
  deriving DecidableEq, Repr

/-- `isinstance(result, Exception)` — the check on line 75 of `remote.py` that
classifies a received pipe message.  On the two-shape message union it holds
exactly for exception values and never looks at byte content. -/
def isinstanceException : PipeMsg → Bool
  | .pyExc _ => true
  | _ => false

/-- What an awaited `__get_response(uid)` coroutine does when it completes. -/
inductive Outcome where
  | success (m : PipeMsg)          -- returned `result` (a message consumed from the pipe)
  | raisedConsumed (e : PyException)  -- consumed an exception message, stored it, raised it
  | raisedPoisoned (e : PyException)  -- raised the already-stored `__exception` without reading the pipe
  | blocked                         -- junk marker: `recv` on an empty pipe (unreachable under the guard)
  deriving DecidableEq, Repr

/-- The state of one `Remote` instance together with the observable history of
its interactions: the host→worker pipe contents (`chanOut`), the worker→host
pipe contents (`chanIn`), the uids of issued-but-unfinished waiters
(`pending`, in issue order) and the log of completed waiters (`delivered`,
in completion order). -/
structure RemoteState where
  activeRequestUid : Nat
  nextRequestUid : Nat
  exception : Option PyException
  chanIn : List PipeMsg
  chanOut : List (List Nat)
  pending : List Nat
  delivered : List (Nat × Outcome)
  deriving DecidableEq, Repr

/-- `Remote.__init__`: both uid counters start at 0 and no exception is stored. -/
def RemoteState.init : RemoteState :=
  { activeRequestUid := 0, nextRequestUid := 0, exception := none,
    chanIn := [], chanOut := [], pending := [], delivered := [] }

/-- `Remote.new_request(payload)`: send `payload` on the pipe, create the
waiter task for uid `__next_request_uid`, then increment the counter.
Returns the new state and the uid given to the created awaiter. -/
def new_request (s : RemoteState) (payload : List Nat) : RemoteState × Nat :=
  ({ s with chanOut := s.chanOut ++ [payload],
            pending := s.pending ++ [s.nextRequestUid],
            nextRequestUid := s.nextRequestUid + 1 },
   s.nextRequestUid)

/-- The negation of the `while` condition in `__get_response`: the waiter for
`uid` leaves its polling loop exactly when
`(active_request_uid == uid and pipe.poll()) or exception is not None`. -/
def resume_condition (s : RemoteState) (uid : Nat) : Bool :=
  (s.activeRequestUid == uid && !s.chanIn.isEmpty) || s.exception.isSome

/-- The body of `__get_response` after the polling loop, run atomically:
increment `__active_request_uid`; if `__exception` is set, raise it;
otherwise `recv()` from the pipe; if the received value is an `Exception`
instance, store and raise it, else return it. -/
def get_response_resume (s : RemoteState) : RemoteState × Outcome :=
  let s1 := { s with activeRequestUid := s.activeRequestUid + 1 }
  match s1.exception with
  | some e => (s1, .raisedPoisoned e)
  | none =>
    match s1.chanIn with
    | [] => (s1, .blocked)
    | m :: rest =>
      match m with
      | .pyExc e =>
          ({ s1 with exception := some e, chanIn := rest }, .raisedConsumed e)
      | m => ({ s1 with chanIn := rest }, .success m)

/-- One waiter completion: run the resume body, retire the uid from `pending`
and append the outcome to the delivery log. -/
def wakeStep (s : RemoteState) (uid : Nat) : RemoteState :=
  let p := get_response_resume s
  { p.1 with pending := s.pending.erase uid,
             delivered := s.delivered ++ [(uid, p.2)] }

/-- Events driving a `Remote` instance: the host issues a request, the worker
process puts a message on the pipe (in any physical order), or the waiter for
some uid is scheduled and passes its resume guard. -/
inductive RemoteEvent where
  | issue (payload : List Nat)
  | arrive (m : PipeMsg)
  | wake (uid : Nat)
  deriving DecidableEq, Repr

/-- Small-step semantics of the proxy.  A `wake uid` step is enabled only for
a still-pending uid whose resume condition holds. -/
def stepFn (s : RemoteState) : RemoteEvent → Option RemoteState
  | .issue p => some (new_request s p).1
  | .arrive m => some { s with chanIn := s.chanIn ++ [m] }
  | .wake uid =>
      if uid ∈ s.pending ∧ resume_condition s uid then some (wakeStep s uid) else none

/-- Run a trace of events from a state. -/
def run (s : RemoteState) : List RemoteEvent → Option RemoteState
  | [] => some s
  | ev :: evs =>
    match stepFn s ev with
    | none => none
    | some s' => run s' evs

/-- An outcome that consumed a message from the worker→host pipe. -/
def Outcome.isConsumption : Outcome → Bool
  | .success _ => true
  | .raisedConsumed _ => true
  | _ => false

/-- An outcome that raised an exception to the caller. -/
def Outcome.isRaised : Outcome → Bool
  | .raisedConsumed _ => true
  | .raisedPoisoned _ => true
  | _ => false

/-- The exception an outcome raised, if any. -/
def Outcome.fault : Outcome → Option PyException
  | .raisedConsumed e => some e
  | .raisedPoisoned e => some e
  | _ => none

/-- The sub-log of deliveries that consumed a pipe message, in completion order. -/
def consumedLog (l : List (Nat × Outcome)) : List (Nat × Outcome) :=
  l.filter (fun p => p.2.isConsumption)

/-- The uids of successfully answered calls, in completion order. -/
def successUids (l : List (Nat × Outcome)) : List Nat :=
  (l.filter (fun p => match p.2 with | .success _ => true | _ => false)).map Prod.fst

/-! ## The worker's receive loop (`_RemoteProcess.__handle_rx`) -/

/-- `HEADER = b"\xff\xff\xff\xff"` as a list of byte values. -/
def HEADER : List Nat := [0xff, 0xff, 0xff, 0xff]

/-- The three statuses `unpadded.PacketStatus` can report for a byte fed to
the dispatcher. -/
inductive PacketStatus where
  | DROPPED_PACKET
  | RESOLVED_PACKET
  | LOADING_PACKET
  deriving DecidableEq, Repr

/-- Abstract model of the `unpadded` dispatcher (the external codec), over an
arbitrary internal state type `σ`: `put` feeds one byte and reports a status,
`is_loaded` tells whether resolved-but-unread data is pending, and `write_to`
applied to a discarding sink (`lambda x: None` in the source) drops it. -/
structure DispatcherModel (σ : Type) where
  put : σ → Nat → σ × PacketStatus
  is_loaded : σ → Bool
  write_to_discard : σ → σ

/-- The receive loop's state: the header-match countdown `header_sentinel`
plus the dispatcher's state. -/
structure RxState (σ : Type) where
  header_sentinel : Nat
  disp : σ
  deriving DecidableEq, Repr

/-- On entry to `__handle_rx`, `header_sentinel = len(HEADER)`. -/
def rxInit (d : σ) : RxState σ := { header_sentinel := HEADER.length, disp := d }

/-- What processing one received byte did, besides updating the state. -/
structure RxEffect where
  fed : Bool      -- the byte was forwarded to `dispatcher.put`
  warned : Bool   -- `check_unloaded_dispatcher` emitted the RuntimeWarning
  deriving DecidableEq, Repr

/-- The `RuntimeError` raised by `raise_corrupted_packet`. -/
def corruptedPacketError : PyException :=
  .runtimeError "A corrupted packet has been received. Process will stop."

/-- Processing of one byte `x` inside `__handle_rx`'s inner loop:
if `header_sentinel == 0` the byte goes to the dispatcher and the status is
matched (`DROPPED_PACKET` raises; `RESOLVED_PACKET` runs
`check_unloaded_dispatcher`, which resets the sentinel and, when the
dispatcher is loaded, warns and discards; `LOADING_PACKET` does nothing);
otherwise the sentinel is decremented on a `0xff` byte and reset to
`len(HEADER)` on any other byte. -/
def rxStep (D : DispatcherModel σ) (st : RxState σ) (x : Nat) :
    Except PyException (RxState σ × RxEffect) :=
  if st.header_sentinel = 0 then
    match (D.put st.disp x).2 with
    | .DROPPED_PACKET => .error corruptedPacketError
    | .RESOLVED_PACKET =>
        if D.is_loaded (D.put st.disp x).1 then
          .ok ({ header_sentinel := HEADER.length,
                 disp := D.write_to_discard (D.put st.disp x).1 },
               { fed := true, warned := true })
        else
          .ok ({ header_sentinel := HEADER.length, disp := (D.put st.disp x).1 },
               { fed := true, warned := false })
    | .LOADING_PACKET =>
        .ok ({ st with disp := (D.put st.disp x).1 }, { fed := true, warned := false })
  else
    .ok ({ st with header_sentinel :=
             if x = 0xff then st.header_sentinel - 1 else HEADER.length },
         { fed := false, warned := false })

/-- The receive loop run over a list of available serial bytes; stops with the
raised exception as soon as one byte processing raises. -/
def rxRun (D : DispatcherModel σ) (st : RxState σ) : List Nat → Except PyException (RxState σ)
  | [] => .ok st
  | x :: xs =>
    match rxStep D st x with
    | .error e => .error e
    | .ok p => rxRun D p.1 xs

/-! ## The supervisor (`_RemoteProcess.__start`) -/

/-- The two coroutines supervised by `__start`. -/
inductive LoopId where
  | handle_tx
  | handle_rx
  deriving DecidableEq, Repr

/-- The result of `asyncio.wait([handle_tx, handle_rx], return_when=FIRST_EXCEPTION)`:
the finished tasks with the value `coro.exception()` yields for each, and the
still-pending tasks. -/
structure WaitResult where
  done : List (LoopId × Option PyException)
  pend : List LoopId
  deriving DecidableEq, Repr

/-- What `coro.exception()` returns, as the pipe message `pipe.send` transmits:
the exception object, or `None` for a task that finished without raising. -/
def exceptionToMsg : Option PyException → PipeMsg
  | some e => .pyExc e
  | none => .pyNone

/-- The tail of `__start` after `asyncio.wait` returns: send `coro.exception()`
over the pipe for every finished task, and cancel every pending task.
Returns the messages sent to the host (in order) and the cancelled tasks. -/
def superviseOutcome (w : WaitResult) : List PipeMsg × List LoopId :=
  (w.done.map (fun p => exceptionToMsg p.2), w.pend)

/-! ## The transmit loop (`_RemoteProcess.__handle_tx`) -/

/-- Where the transmit coroutine is suspended: at its top-of-loop poll, or
inside `response_received_condition.wait()` after writing a frame. -/
inductive TxPhase where
  | idle
  | awaitingReply
  deriving DecidableEq, Repr

/-- State of the transmit loop: its phase, the payloads waiting on the
host→worker pipe, the payloads consumed from it so far (in order), and the
byte strings written to the serial device (in order). -/
structure TxState where
  phase : TxPhase
  outQueue : List (List Nat)
  consumed : List (List Nat)
  written : List (List Nat)
  deriving DecidableEq, Repr

def TxState.start : TxState :=
  { phase := .idle, outQueue := [], consumed := [], written := [] }

/-- Events seen by the transmit loop: the host enqueues a payload on the pipe,
the loop reaches its top-of-loop poll, or `__reply_callback` broadcasts on the
condition (`notify_all`). -/
inductive TxEvent where
  | enqueue (p : List Nat)
  | poll
  | signal
  deriving DecidableEq, Repr

/-- One transition of the transmit loop.  A poll writes `HEADER + payload`
for the first waiting payload and then suspends on the condition; while the
loop is suspended in `wait()` it cannot poll, and only a `signal` (the reply
callback's `notify_all`) returns it to the top of its loop.  A `notify_all`
with no waiter is lost, as for a real condition variable. -/
def txStep (s : TxState) : TxEvent → TxState
  | .enqueue p => { s with outQueue := s.outQueue ++ [p] }
  | .poll =>
    match s.phase, s.outQueue with
    | .idle, p :: rest =>
        { s with phase := .awaitingReply, outQueue := rest,
                 consumed := s.consumed ++ [p],
                 written := s.written ++ [HEADER ++ p] }
    | _, _ => s
  | .signal =>
    match s.phase with
    | .awaitingReply => { s with phase := .idle }
    | .idle => s

/-- The transmit loop driven by a trace of events. -/
def txRun (s : TxState) : List TxEvent → TxState
  | [] => s
  | ev :: evs => txRun (txStep s ev) evs

/-- Number of `signal` events in a transmit trace. -/
def countSignals (evs : List TxEvent) : Nat :=
  evs.countP (fun ev => ev = TxEvent.signal)

/-- An outcome that consumed an exception message from the pipe. -/
def Outcome.isConsumedFault : Outcome → Bool
  | .raisedConsumed _ => true
  | _ => false

/-- Number of `issue` events in a proxy trace. -/
def countIssues (evs : List RemoteEvent) : Nat :=
  evs.countP (fun ev => match ev with | .issue _ => true | _ => false)

/-- The state invariant of a `Remote` instance, established by `__init__` and
preserved by every event.  It packages the bookkeeping facts the claims need:
uid bounds and freshness, uniqueness of deliveries, that the uids of
pipe-consuming deliveries are exactly `0, 1, 2, …` in completion order, that
`__active_request_uid` counts consumptions while no exception is stored, that
before poisoning every delivery is a success, and that after poisoning every
raised fault is the stored one and exactly one exception message was consumed. -/
structure Inv (s : RemoteState) : Prop where
  pending_lt : ∀ u ∈ s.pending, u < s.nextRequestUid
  delivered_lt : ∀ u ∈ s.delivered.map Prod.fst, u < s.nextRequestUid
  pending_nodup : s.pending.Nodup
  delivered_nodup : (s.delivered.map Prod.fst).Nodup
  pending_fresh : ∀ u ∈ s.pending, u ∉ s.delivered.map Prod.fst
  consumed_range :
    (consumedLog s.delivered).map Prod.fst = List.range (consumedLog s.delivered).length
  active_count : s.exception = none → s.activeRequestUid = (consumedLog s.delivered).length
  clean_success : s.exception = none → ∀ p ∈ s.delivered, ∃ m, p.2 = Outcome.success m
  poison_fault : ∀ e, s.exception = some e →
    ∀ p ∈ s.delivered, p.2.isRaised = true → p.2.fault = some e
  poison_consumed_once : ∀ e, s.exception = some e →
    s.delivered.countP (fun p => p.2.isConsumedFault) = 1

/-- A dispatcher double that reports `DROPPED_PACKET` for every byte. -/
def dropAllDispatcher : DispatcherModel Unit :=
  { put := fun _ _ => ((), .DROPPED_PACKET),
    is_loaded := fun _ => false,
    write_to_discard := fun d => d }

/-- A dispatcher double that resolves on every byte and then still reports
pending unread data (state `true` = loaded). -/
def loadedDispatcher : DispatcherModel Bool :=
  { put := fun _ _ => (true, .RESOLVED_PACKET),
    is_loaded := fun d => d,
    write_to_discard := fun _ => false }

/-- 0 when the transmit loop is at its top-of-loop poll, 1 while it is
suspended waiting for the turn-finished signal (one unconfirmed frame). -/
def txSlack (s : TxState) : Nat :=
  match s.phase with
  | .idle => 0
  | .awaitingReply => 1

/-- A concrete trace: two requests, whose answers arrive and are consumed in
order. -/
def traceFIFO : List RemoteEvent :=
  [.issue [1], .issue [2, 3], .arrive (.pyBytes [10]), .wake 0,
   .arrive (.pyBytes [20]), .wake 1]

/-- A concrete trace that poisons the link: two requests, a fault message, all
waiters completing, and a third request issued after poisoning. -/
def tracePoison : List RemoteEvent :=
  [.issue [1], .issue [2], .arrive (.pyExc (.generic 7)), .wake 0, .wake 1,
   .issue [3], .wake 2]

/-- The state `run RemoteState.init traceFIFO` reaches. -/
def sFifo : RemoteState :=
  { activeRequestUid := 2, nextRequestUid := 2, exception := none, chanIn := [],
    chanOut := [[1], [2, 3]], pending := [],
    delivered := [(0, .success (.pyBytes [10])), (1, .success (.pyBytes [20]))] }

/-- The state `run RemoteState.init tracePoison` reaches. -/
def sPoison : RemoteState :=
  { activeRequestUid := 3, nextRequestUid := 3, exception := some (.generic 7),
    chanIn := [], chanOut := [[1], [2], [3]], pending := [],
    delivered := [(0, .raisedConsumed (.generic 7)), (1, .raisedPoisoned (.generic 7)),
                  (2, .raisedPoisoned (.generic 7))] }

/-- A state with one pending waiter and one success message waiting. -/
def sReady : RemoteState :=
  { activeRequestUid := 0, nextRequestUid := 1, exception := none,
    chanIn := [.pyBytes [5]], chanOut := [[1]], pending := [0], delivered := [] }

/-- A clean state with an exception message at the head of the pipe. -/
def sFaultHead : RemoteState :=
  { activeRequestUid := 0, nextRequestUid := 1, exception := none,
    chanIn := [.pyExc (.generic 4)], chanOut := [[1]], pending := [0], delivered := [] }

/-- A poisoned state with a pending waiter and unread data on the pipe. -/
def sPoisonPending : RemoteState :=
  { activeRequestUid := 1, nextRequestUid := 2, exception := some (.generic 9),
    chanIn := [.pyBytes [6]], chanOut := [[1], [2]], pending := [1],
    delivered := [(0, .raisedConsumed (.generic 9))] }

theorem wakeStep_poisoned {s : RemoteState} {e : PyException} (uid : Nat)
    (hexc : s.exception = some e) :
    wakeStep s uid =
      { s with activeRequestUid := s.activeRequestUid + 1,
               pending := s.pending.erase uid,
               delivered := s.delivered ++ [(uid, Outcome.raisedPoisoned e)] } := by
  obtain ⟨a, n, exc, ci, co, pd, dl⟩ := s
  dsimp at hexc
  subst hexc
  rfl

theorem wakeStep_consume_fault {s : RemoteState} {e : PyException} {rest : List PipeMsg}
    (uid : Nat) (hexc : s.exception = none) (hchan : s.chanIn = PipeMsg.pyExc e :: rest) :
    wakeStep s uid =
      { s with activeRequestUid := s.activeRequestUid + 1,
               exception := some e, chanIn := rest,
               pending := s.pending.erase uid,
               delivered := s.delivered ++ [(uid, Outcome.raisedConsumed e)] } := by
  obtain ⟨a, n, exc, ci, co, pd, dl⟩ := s
  dsimp at hexc hchan
  subst hexc; subst hchan
  rfl

theorem wakeStep_consume_success {s : RemoteState} {m : PipeMsg} {rest : List PipeMsg}
    (uid : Nat) (hexc : s.exception = none) (hchan : s.chanIn = m :: rest)
    (hm : isinstanceException m = false) :
    wakeStep s uid =
      { s with activeRequestUid := s.activeRequestUid + 1,
               chanIn := rest,
               pending := s.pending.erase uid,
               delivered := s.delivered ++ [(uid, Outcome.success m)] } := by
  obtain ⟨a, n, exc, ci, co, pd, dl⟩ := s
  dsimp at hexc hchan
  subst hexc; subst hchan
  cases m with
  | pyBytes b => rfl
  | pyNone => rfl
  | pyExc e => simp [isinstanceException] at hm


theorem consumedLog_append_consumption {l : List (Nat × Outcome)} {uid : Nat} {o : Outcome}
    (ho : o.isConsumption = true) :
    consumedLog (l ++ [(uid, o)]) = consumedLog l ++ [(uid, o)] := by
  simp [consumedLog, List.filter_append, ho]

theorem consumedLog_append_skip {l : List (Nat × Outcome)} {uid : Nat} {o : Outcome}
    (ho : o.isConsumption = false) :
    consumedLog (l ++ [(uid, o)]) = consumedLog l := by
  simp [consumedLog, List.filter_append, ho]

theorem consumed_range_extend {l : List (Nat × Outcome)} {uid : Nat} {o : Outcome}
    (h : (consumedLog l).map Prod.fst = List.range (consumedLog l).length)
    (ho : o.isConsumption = true) (huid : uid = (consumedLog l).length) :
    (consumedLog (l ++ [(uid, o)])).map Prod.fst =
      List.range (consumedLog (l ++ [(uid, o)])).length := by
  rw [consumedLog_append_consumption ho, List.map_append, h, List.length_append]
  simp [huid, List.range_succ]

theorem wake_bookkeeping {s : RemoteState} (hs : Inv s) {uid : Nat}
    (hmem : uid ∈ s.pending) (o : Outcome) :
    (∀ u ∈ s.pending.erase uid, u < s.nextRequestUid) ∧
    (∀ u ∈ (s.delivered ++ [(uid, o)]).map Prod.fst, u < s.nextRequestUid) ∧
    (s.pending.erase uid).Nodup ∧
    ((s.delivered ++ [(uid, o)]).map Prod.fst).Nodup ∧
    (∀ u ∈ s.pending.erase uid, u ∉ (s.delivered ++ [(uid, o)]).map Prod.fst) := by
  refine ⟨?_, ?_, ?_, ?_, ?_⟩
  · intro u hu
    exact hs.pending_lt u (List.mem_of_mem_erase hu)
  · intro u hu
    rw [List.map_append] at hu
    rcases List.mem_append.1 hu with h1 | h1
    · exact hs.delivered_lt u h1
    · simp at h1
      rw [h1]
      exact hs.pending_lt uid hmem
  · exact (List.erase_sublist uid s.pending).nodup hs.pending_nodup
  · rw [List.map_append, List.nodup_append]
    refine ⟨hs.delivered_nodup, by simp, ?_⟩
    intro x hx hx'
    simp at hx'
    exact hs.pending_fresh uid hmem (hx' ▸ hx)
  · intro u hu
    have hne : u ≠ uid := ((List.Nodup.mem_erase_iff hs.pending_nodup).1 hu).1
    have hu' : u ∈ s.pending := List.mem_of_mem_erase hu
    rw [List.map_append]
    intro hmem2
    rcases List.mem_append.1 hmem2 with h1 | h1
    · exact hs.pending_fresh u hu' h1
    · simp at h1
      exact hne h1


theorem inv_wake_poisoned {s : RemoteState} (hs : Inv s) {uid : Nat} {e : PyException}
    (hmem : uid ∈ s.pending) (hexc : s.exception = some e) :
    Inv (wakeStep s uid) := by
  rw [wakeStep_poisoned uid hexc]
  obtain ⟨b1, b2, b3, b4, b5⟩ := wake_bookkeeping hs hmem (Outcome.raisedPoisoned e)
  refine ⟨b1, b2, b3, b4, b5, ?_, ?_, ?_, ?_, ?_⟩
  · show (consumedLog (s.delivered ++ [(uid, Outcome.raisedPoisoned e)])).map Prod.fst = _
    rw [consumedLog_append_skip (by rfl)]
    exact hs.consumed_range
  · intro h
    exact absurd (hexc.symm.trans h) (by simp)
  · intro h
    exact absurd (hexc.symm.trans h) (by simp)
  · intro e' he' p hp hraised
    have he : e' = e := by
      have := hexc.symm.trans he'
      exact (Option.some.inj this).symm
    subst he
    rcases List.mem_append.1 hp with h1 | h1
    · exact hs.poison_fault e' hexc p h1 hraised
    · simp at h1
      rw [h1]
      rfl
  · intro e' he'
    have he : e' = e := by
      have := hexc.symm.trans he'
      exact (Option.some.inj this).symm
    rw [List.countP_append]
    rw [hs.poison_consumed_once e hexc]
    rfl

theorem inv_wake_fault {s : RemoteState} (hs : Inv s) {uid : Nat} {e : PyException}
    {rest : List PipeMsg} (hmem : uid ∈ s.pending) (hexc : s.exception = none)
    (hchan : s.chanIn = PipeMsg.pyExc e :: rest) (hactive : s.activeRequestUid = uid) :
    Inv (wakeStep s uid) := by
  rw [wakeStep_consume_fault uid hexc hchan]
  obtain ⟨b1, b2, b3, b4, b5⟩ := wake_bookkeeping hs hmem (Outcome.raisedConsumed e)
  refine ⟨b1, b2, b3, b4, b5, ?_, ?_, ?_, ?_, ?_⟩
  · show (consumedLog (s.delivered ++ [(uid, Outcome.raisedConsumed e)])).map Prod.fst = _
    exact consumed_range_extend hs.consumed_range (by rfl)
      (hactive ▸ hs.active_count hexc)
  · intro h
    exact absurd h (by simp)
  · intro h
    exact absurd h (by simp)
  · intro e' he' p hp hraised
    have he : e' = e := by
      simpa using he'.symm
    subst he
    rcases List.mem_append.1 hp with h1 | h1
    · obtain ⟨m, hm⟩ := hs.clean_success hexc p h1
      rw [hm] at hraised
      exact absurd hraised (by simp [Outcome.isRaised])
    · simp at h1
      rw [h1]
      rfl
  · intro e' _
    rw [List.countP_append]
    have h0 : s.delivered.countP (fun p => p.2.isConsumedFault) = 0 := by
      rw [List.countP_eq_zero]
      intro p hp
      obtain ⟨m, hm⟩ := hs.clean_success hexc p hp
      simp [hm, Outcome.isConsumedFault]
    rw [h0]
    rfl

theorem inv_wake_success {s : RemoteState} (hs : Inv s) {uid : Nat} {m : PipeMsg}
    {rest : List PipeMsg} (hmem : uid ∈ s.pending) (hexc : s.exception = none)
    (hchan : s.chanIn = m :: rest) (hm : isinstanceException m = false)
    (hactive : s.activeRequestUid = uid) :
    Inv (wakeStep s uid) := by
  rw [wakeStep_consume_success uid hexc hchan hm]
  obtain ⟨b1, b2, b3, b4, b5⟩ := wake_bookkeeping hs hmem (Outcome.success m)
  refine ⟨b1, b2, b3, b4, b5, ?_, ?_, ?_, ?_, ?_⟩
  · show (consumedLog (s.delivered ++ [(uid, Outcome.success m)])).map Prod.fst = _
    exact consumed_range_extend hs.consumed_range (by rfl)
      (hactive ▸ hs.active_count hexc)
  · intro _
    show s.activeRequestUid + 1 = _
    rw [consumedLog_append_consumption (by rfl), List.length_append,
      hs.active_count hexc]
    rfl
  · intro _ p hp
    rcases List.mem_append.1 hp with h1 | h1
    · exact hs.clean_success hexc p h1
    · simp at h1
      rw [h1]
      exact ⟨m, rfl⟩
  · intro e' he'
    exact absurd (hexc.symm.trans he') (by simp)
  · intro e' he'
    exact absurd (hexc.symm.trans he') (by simp)


theorem inv_init : Inv RemoteState.init := by
  refine ⟨?_, ?_, ?_, ?_, ?_, ?_, ?_, ?_, ?_, ?_⟩ <;>
    simp [RemoteState.init, consumedLog]

theorem inv_step {s s' : RemoteState} {ev : RemoteEvent}
    (hs : Inv s) (h : stepFn s ev = some s') : Inv s' := by
  cases ev with
  | issue p =>
      have h' : (new_request s p).1 = s' := by simpa [stepFn] using h
      subst h'
      refine ⟨?_, ?_, ?_, ?_, ?_, ?_, ?_, ?_, ?_, ?_⟩
      · intro u hu
        dsimp [new_request] at hu
        rcases List.mem_append.1 hu with h1 | h1
        · exact Nat.lt_succ_of_lt (hs.pending_lt u h1)
        · simp at h1
          rw [h1]
          exact Nat.lt_succ_self _
      · intro u hu
        exact Nat.lt_succ_of_lt (hs.delivered_lt u hu)
      · show (s.pending ++ [s.nextRequestUid]).Nodup
        rw [List.nodup_append]
        refine ⟨hs.pending_nodup, by simp, ?_⟩
        intro x hx hx'
        simp at hx'
        rw [hx'] at hx
        exact absurd (hs.pending_lt _ hx) (by simp)
      · exact hs.delivered_nodup
      · intro u hu
        dsimp [new_request] at hu
        rcases List.mem_append.1 hu with h1 | h1
        · exact hs.pending_fresh u h1
        · simp at h1
          rw [h1]
          intro hcon
          exact absurd (hs.delivered_lt _ hcon) (by simp)
      · exact hs.consumed_range
      · exact hs.active_count
      · exact hs.clean_success
      · exact hs.poison_fault
      · exact hs.poison_consumed_once
  | arrive m =>
      have h' : ({ s with chanIn := s.chanIn ++ [m] } : RemoteState) = s' := by
        simpa [stepFn] using h
      subst h'
      exact ⟨hs.pending_lt, hs.delivered_lt, hs.pending_nodup, hs.delivered_nodup,
        hs.pending_fresh, hs.consumed_range, hs.active_count, hs.clean_success,
        hs.poison_fault, hs.poison_consumed_once⟩
  | wake uid =>
      simp only [stepFn] at h
      split at h
      case isTrue hg =>
        injection h with h
        subst h
        obtain ⟨hmem, hres⟩ := hg
        cases hexc : s.exception with
        | some e => exact inv_wake_poisoned hs hmem hexc
        | none =>
          have hres2 : s.activeRequestUid = uid ∧ s.chanIn ≠ [] := by
            simpa [resume_condition, hexc] using hres
          obtain ⟨hactive, hne⟩ := hres2
          cases hchan : s.chanIn with
          | nil => exact absurd hchan hne
          | cons m rest =>
            cases m with
            | pyBytes b => exact inv_wake_success hs hmem hexc hchan (by rfl) hactive
            | pyNone => exact inv_wake_success hs hmem hexc hchan (by rfl) hactive
            | pyExc e => exact inv_wake_fault hs hmem hexc hchan hactive
      case isFalse =>
        exact absurd h (by simp)

theorem inv_run : ∀ {evs : List RemoteEvent} {s s' : RemoteState},
    run s evs = some s' → Inv s → Inv s' := by
  intro evs
  induction evs with
  | nil =>
      intro s s' h hs
      simp only [run] at h
      injection h with h
      rw [← h]
      exact hs
  | cons ev evs ih =>
      intro s s' h hs
      simp only [run] at h
      cases hstep : stepFn s ev with
      | none =>
          rw [hstep] at h
          exact absurd h (by simp)
      | some s1 =>
          rw [hstep] at h
          exact ih h (inv_step hs hstep)

theorem wakeStep_next (s : RemoteState) (uid : Nat) :
    (wakeStep s uid).nextRequestUid = s.nextRequestUid := by
  obtain ⟨a, n, exc, ci, co, pd, dl⟩ := s
  cases exc with
  | some e => rfl
  | none =>
      cases ci with
      | nil => rfl
      | cons m rest => cases m <;> rfl

theorem run_next : ∀ {evs : List RemoteEvent} {s s' : RemoteState},
    run s evs = some s' → s'.nextRequestUid = s.nextRequestUid + countIssues evs := by
  intro evs
  induction evs with
  | nil =>
      intro s s' h
      simp only [run] at h
      injection h with h
      simp [← h, countIssues]
  | cons ev evs ih =>
      intro s s' h
      simp only [run] at h
      cases hstep : stepFn s ev with
      | none =>
          rw [hstep] at h
          exact absurd h (by simp)
      | some s1 =>
          rw [hstep] at h
          have hnext : s1.nextRequestUid =
              s.nextRequestUid + (if (match ev with | RemoteEvent.issue _ => true | _ => false) then 1 else 0) := by
            cases ev with
            | issue p =>
                have : (new_request s p).1 = s1 := by simpa [stepFn] using hstep
                rw [← this]
                rfl
            | arrive m =>
                have : ({ s with chanIn := s.chanIn ++ [m] } : RemoteState) = s1 := by
                  simpa [stepFn] using hstep
                rw [← this]
                rfl
            | wake uid =>
                simp only [stepFn] at hstep
                split at hstep
                case isTrue =>
                    injection hstep with hstep
                    rw [← hstep]
                    simpa using wakeStep_next s uid
                case isFalse =>
                    exact absurd hstep (by simp)
          rw [ih h, hnext]
          simp [countIssues, List.countP_cons]
          omega


theorem clean_oldest {s : RemoteState} (hs : Inv s) (hexc : s.exception = none) :
    ∀ u ∈ s.pending, s.activeRequestUid ≤ u := by
  intro u hu
  by_contra hlt
  push_neg at hlt
  have hcons : consumedLog s.delivered = s.delivered := by
    rw [consumedLog, List.filter_eq_self]
    intro p hp
    obtain ⟨m, hm⟩ := hs.clean_success hexc p hp
    simp [hm, Outcome.isConsumption]
  have hrange : s.delivered.map Prod.fst = List.range s.activeRequestUid := by
    have h1 := hs.consumed_range
    rw [hcons] at h1
    rw [h1, hs.active_count hexc, hcons]
  have hmem2 : u ∈ s.delivered.map Prod.fst := by
    rw [hrange, List.mem_range]
    exact hlt
  exact hs.pending_fresh u hu hmem2

theorem wake_consumes_only_active {s : RemoteState} {uid : Nat} {s' : RemoteState}
    (h : stepFn s (RemoteEvent.wake uid) = some s') (hchange : s'.chanIn ≠ s.chanIn) :
    s.exception = none ∧ s.activeRequestUid = uid ∧ s.chanIn ≠ [] := by
  simp only [stepFn] at h
  split at h
  case isTrue hg =>
    injection h with h
    subst h
    obtain ⟨hmem, hres⟩ := hg
    cases hexc : s.exception with
    | some e =>
        rw [wakeStep_poisoned uid hexc] at hchange
        exact absurd rfl hchange
    | none =>
        have hres2 : s.activeRequestUid = uid ∧ s.chanIn ≠ [] := by
          simpa [resume_condition, hexc] using hres
        exact ⟨rfl, hres2.1, hres2.2⟩
  case isFalse =>
    exact absurd h (by simp)

theorem succ_sublist_consumed (l : List (Nat × Outcome)) :
    List.Sublist (successUids l) ((consumedLog l).map Prod.fst) := by
  have himp : ∀ p : Nat × Outcome,
      (fun q : Nat × Outcome =>
        match q.2 with | Outcome.success _ => true | _ => false) p = true →
      (fun q : Nat × Outcome => q.2.isConsumption) p = true := by
    intro p hp
    dsimp only at hp ⊢
    cases h2 : p.2 with
    | success m => rfl
    | raisedConsumed e => rfl
    | raisedPoisoned e =>
        rw [h2] at hp
        exact Bool.noConfusion hp
    | blocked =>
        rw [h2] at hp
        exact Bool.noConfusion hp
  exact (List.monotone_filter_right l himp).map Prod.fst

/-- C1: a waiter's resume consumes a pipe message only when no fault is stored,
its uid equals `__active_request_uid` and the pipe holds data; in every
reachable state the uids of pipe-consuming completions are exactly
`0, 1, 2, …` in completion order, success responses are delivered in strictly
increasing uid order, and while unpoisoned the active uid is the oldest
still-pending uid — all regardless of the arrival order injected by `arrive`
events. -/
theorem C1_responses_in_issuance_order :
    (∀ (s : RemoteState) (uid : Nat) (s' : RemoteState),
        stepFn s (RemoteEvent.wake uid) = some s' → s'.chanIn ≠ s.chanIn →
        s.exception = none ∧ s.activeRequestUid = uid ∧ s.chanIn ≠ []) ∧
    (∀ (evs : List RemoteEvent) (s : RemoteState),
        run RemoteState.init evs = some s →
        (consumedLog s.delivered).map Prod.fst =
          List.range (consumedLog s.delivered).length ∧
        (successUids s.delivered).Pairwise (· < ·) ∧
        (s.exception = none → ∀ u ∈ s.pending, s.activeRequestUid ≤ u)) := by
  refine ⟨?_, ?_⟩
  · intro s uid s' h hchange
    exact wake_consumes_only_active h hchange
  · intro evs s hrun
    have hs := inv_run hrun inv_init
    refine ⟨hs.consumed_range, ?_, clean_oldest hs⟩
    have hpair : ((consumedLog s.delivered).map Prod.fst).Pairwise (· < ·) := by
      rw [hs.consumed_range]
      exact List.pairwise_lt_range _
    exact hpair.sublist (succ_sublist_consumed s.delivered)

/-- C2: `new_request` returns the current value of `__next_request_uid` as the
new request's uid, sends the payload on the pipe at submission time, registers
the awaiter, and increments the counter; over any reachable trace the counter
equals the number of issued requests and no uid is ever duplicated among
pending awaiters or completed deliveries. -/
theorem C2_uid_assignment :
    (∀ (s : RemoteState) (p : List Nat),
        (new_request s p).2 = s.nextRequestUid ∧
        (new_request s p).1.nextRequestUid = s.nextRequestUid + 1 ∧
        (new_request s p).1.chanOut = s.chanOut ++ [p] ∧
        (new_request s p).1.pending = s.pending ++ [s.nextRequestUid]) ∧
    (∀ (evs : List RemoteEvent) (s : RemoteState),
        run RemoteState.init evs = some s →
        s.nextRequestUid = countIssues evs ∧
        s.pending.Nodup ∧
        (s.delivered.map Prod.fst).Nodup ∧
        (∀ u ∈ s.pending, u ∉ s.delivered.map Prod.fst)) := by
  refine ⟨?_, ?_⟩
  · intro s p
    exact ⟨rfl, rfl, rfl, rfl⟩
  · intro evs s hrun
    have hs := inv_run hrun inv_init
    have hn := run_next hrun
    refine ⟨?_, hs.pending_nodup, hs.delivered_nodup, hs.pending_fresh⟩
    simpa [RemoteState.init] using hn


/-- C3: consuming an exception message stores it as the permanent poison value
and raises it to the consuming call; no step ever clears a stored exception;
in a poisoned state every waiter is immediately resumable and raises the same
stored fault; and in any reachable poisoned state every raised fault equals
the stored one, no caller completes twice, and exactly one exception message
was consumed. -/
theorem C3_poison_permanent :
    (∀ (s : RemoteState) (uid : Nat) (e : PyException) (rest : List PipeMsg),
        s.exception = none → s.chanIn = PipeMsg.pyExc e :: rest →
        (wakeStep s uid).exception = some e ∧
        (wakeStep s uid).delivered = s.delivered ++ [(uid, Outcome.raisedConsumed e)]) ∧
    (∀ (s s' : RemoteState) (ev : RemoteEvent) (e : PyException),
        stepFn s ev = some s' → s.exception = some e → s'.exception = some e) ∧
    (∀ (s : RemoteState) (uid : Nat) (e : PyException), s.exception = some e →
        resume_condition s uid = true ∧
        (wakeStep s uid).exception = some e ∧
        (wakeStep s uid).delivered = s.delivered ++ [(uid, Outcome.raisedPoisoned e)]) ∧
    (∀ (evs : List RemoteEvent) (s : RemoteState) (e : PyException),
        run RemoteState.init evs = some s → s.exception = some e →
        (∀ p ∈ s.delivered, p.2.isRaised = true → p.2.fault = some e) ∧
        (s.delivered.map Prod.fst).Nodup ∧
        s.delivered.countP (fun p => p.2.isConsumedFault) = 1) := by
  refine ⟨?_, ?_, ?_, ?_⟩
  · intro s uid e rest hexc hchan
    rw [wakeStep_consume_fault uid hexc hchan]
    exact ⟨rfl, rfl⟩
  · intro s s' ev e hstep hexc
    cases ev with
    | issue p =>
        have h' : (new_request s p).1 = s' := by simpa [stepFn] using hstep
        rw [← h']
        exact hexc
    | arrive m =>
        have h' : ({ s with chanIn := s.chanIn ++ [m] } : RemoteState) = s' := by
          simpa [stepFn] using hstep
        rw [← h']
        exact hexc
    | wake uid =>
        simp only [stepFn] at hstep
        split at hstep
        case isTrue =>
            injection hstep with hstep
            rw [← hstep, wakeStep_poisoned uid hexc]
            exact hexc
        case isFalse =>
            exact absurd hstep (by simp)
  · intro s uid e hexc
    refine ⟨by simp [resume_condition, hexc], ?_, ?_⟩
    · rw [wakeStep_poisoned uid hexc]
      exact hexc
    · rw [wakeStep_poisoned uid hexc]
  · intro evs s e hrun hexc
    have hs := inv_run hrun inv_init
    exact ⟨hs.poison_fault e hexc, hs.delivered_nodup, hs.poison_consumed_once e hexc⟩

/-- C7: the pipe-message classification in `__get_response` is
`isinstance(result, Exception)`, a discriminator of the two-shape message
union that depends only on which shape the message is, never on the byte
content: any `bytes` payload, however shaped, is delivered as a success and
leaves the poison flag clear, and any exception message is classified as a
failure. -/
theorem C7_classification_by_shape_tag :
    (∀ b : List Nat, isinstanceException (PipeMsg.pyBytes b) = false) ∧
    (∀ e : PyException, isinstanceException (PipeMsg.pyExc e) = true) ∧
    (∀ (s : RemoteState) (uid : Nat) (m : PipeMsg) (rest : List PipeMsg),
        s.exception = none → s.chanIn = m :: rest → isinstanceException m = false →
        (wakeStep s uid).exception = none ∧
        (wakeStep s uid).delivered = s.delivered ++ [(uid, Outcome.success m)]) ∧
    (∀ (s : RemoteState) (uid : Nat) (e : PyException) (rest : List PipeMsg),
        s.exception = none → s.chanIn = PipeMsg.pyExc e :: rest →
        (wakeStep s uid).delivered = s.delivered ++ [(uid, Outcome.raisedConsumed e)]) := by
  refine ⟨fun b => rfl, fun e => rfl, ?_, ?_⟩
  · intro s uid m rest hexc hchan hm
    rw [wakeStep_consume_success uid hexc hchan hm]
    exact ⟨hexc, rfl⟩
  · intro s uid e rest hexc hchan
    rw [wakeStep_consume_fault uid hexc hchan]

/-- C9: `new_request` is a total state transition that behaves identically
whether or not the link is poisoned — it sends the payload, increments the
counter, leaves the stored exception and the delivery log untouched and raises
nothing; when the link is poisoned the stored fault is raised only later, when
the returned awaiter resumes. -/
theorem C9_new_request_never_raises :
    ∀ (s : RemoteState) (p : List Nat),
      (new_request s p).1.exception = s.exception ∧
      (new_request s p).1.chanOut = s.chanOut ++ [p] ∧
      (new_request s p).1.nextRequestUid = s.nextRequestUid + 1 ∧
      (new_request s p).2 = s.nextRequestUid ∧
      (new_request s p).1.delivered = s.delivered ∧
      (∀ e, s.exception = some e →
        (wakeStep (new_request s p).1 (new_request s p).2).delivered =
          s.delivered ++ [(s.nextRequestUid, Outcome.raisedPoisoned e)]) := by
  intro s p
  refine ⟨rfl, rfl, rfl, rfl, rfl, ?_⟩
  intro e hexc
  have hexc' : (new_request s p).1.exception = some e := hexc
  rw [wakeStep_poisoned (new_request s p).2 hexc']
  rfl

/-- C10: a waiter resuming on a poisoned link leaves the pipe unread (the
fault check precedes `recv`), any pipe consumption implies the poison flag was
clear, and along every reachable trace at most one exception message is ever
consumed from the pipe. -/
theorem C10_poisoned_never_reads :
    (∀ (s : RemoteState) (uid : Nat) (e : PyException), s.exception = some e →
        (wakeStep s uid).chanIn = s.chanIn) ∧
    (∀ (s s' : RemoteState) (uid : Nat),
        stepFn s (RemoteEvent.wake uid) = some s' → s'.chanIn ≠ s.chanIn →
        s.exception = none) ∧
    (∀ (evs : List RemoteEvent) (s : RemoteState),
        run RemoteState.init evs = some s →
        s.delivered.countP (fun p => p.2.isConsumedFault) ≤ 1) := by
  refine ⟨?_, ?_, ?_⟩
  · intro s uid e hexc
    rw [wakeStep_poisoned uid hexc]
  · intro s s' uid h hchange
    exact (wake_consumes_only_active h hchange).1
  · intro evs s hrun
    have hs := inv_run hrun inv_init
    cases hexc : s.exception with
    | none =>
        have h0 : s.delivered.countP (fun p => p.2.isConsumedFault) = 0 := by
          rw [List.countP_eq_zero]
          intro p hp
          obtain ⟨m, hm⟩ := hs.clean_success hexc p hp
          simp [hm, Outcome.isConsumedFault]
        rw [h0]
        exact Nat.zero_le 1
    | some e =>
        rw [hs.poison_consumed_once e hexc]


/-- C4: the frame parser's countdown starts at the header length (4); while it
is positive a byte decrements it when it is the expected header byte `0xff`
and resets it to the full header length otherwise, and such a byte is not fed
to the dispatcher; a byte is fed to the dispatcher exactly when the countdown
has reached zero (also on the corrupted-packet path). -/
theorem C4_header_countdown :
    HEADER.length = 4 ∧
    (∀ (σ : Type) (d : σ), (rxInit d).header_sentinel = HEADER.length) ∧
    (∀ (σ : Type) (D : DispatcherModel σ) (st : RxState σ) (x : Nat),
        st.header_sentinel ≠ 0 →
        rxStep D st x = Except.ok
          ({ st with header_sentinel :=
                if x = 0xff then st.header_sentinel - 1 else HEADER.length },
           { fed := false, warned := false })) ∧
    (∀ (σ : Type) (D : DispatcherModel σ) (st : RxState σ) (x : Nat)
        (st' : RxState σ) (eff : RxEffect),
        rxStep D st x = Except.ok (st', eff) → (eff.fed = true ↔ st.header_sentinel = 0)) ∧
    (∀ (σ : Type) (D : DispatcherModel σ) (st : RxState σ) (x : Nat) (e : PyException),
        rxStep D st x = Except.error e → st.header_sentinel = 0) := by
  refine ⟨rfl, fun σ d => rfl, ?_, ?_, ?_⟩
  · intro σ D st x h
    rw [rxStep, if_neg h]
  · intro σ D st x st' eff h
    rw [rxStep] at h
    by_cases hz : st.header_sentinel = 0
    · rw [if_pos hz] at h
      constructor
      · intro _
        exact hz
      · intro _
        cases hput : (D.put st.disp x).2 with
        | DROPPED_PACKET => rw [hput] at h; exact absurd h (by simp)
        | RESOLVED_PACKET =>
            rw [hput] at h
            by_cases hl : D.is_loaded (D.put st.disp x).1 = true
            · rw [if_pos hl] at h
              injection h with h
              injection h with h1 h2
              rw [← h2]
            · rw [if_neg hl] at h
              injection h with h
              injection h with h1 h2
              rw [← h2]
        | LOADING_PACKET =>
            rw [hput] at h
            injection h with h
            injection h with h1 h2
            rw [← h2]
    · rw [if_neg hz] at h
      injection h with h
      injection h with h1 h2
      rw [← h2]
      simp [hz]
  · intro σ D st x e h
    rw [rxStep] at h
    by_cases hz : st.header_sentinel = 0
    · exact hz
    · rw [if_neg hz] at h
      exact absurd h (by simp)

/-- C5: a byte on which the dispatcher reports `DROPPED_PACKET` makes the
receive loop raise the corrupted-packet `RuntimeError` at once, whatever bytes
follow; the supervisor then sends the fault of the failed loop over the pipe
and cancels the surviving loop, terminating the worker. -/
theorem C5_dropped_is_fatal :
    (∀ (σ : Type) (D : DispatcherModel σ) (st : RxState σ) (x : Nat),
        st.header_sentinel = 0 → (D.put st.disp x).2 = PacketStatus.DROPPED_PACKET →
        ∀ xs : List Nat, rxRun D st (x :: xs) = Except.error corruptedPacketError) ∧
    (∀ e : PyException,
        superviseOutcome
            { done := [(LoopId.handle_rx, some e)], pend := [LoopId.handle_tx] } =
          ([PipeMsg.pyExc e], [LoopId.handle_tx])) := by
  refine ⟨?_, fun e => rfl⟩
  intro σ D st x hz hput xs
  have hstep : rxStep D st x = Except.error corruptedPacketError := by
    rw [rxStep, if_pos hz, hput]
  rw [rxRun, hstep]

/-- C6: when the dispatcher resolves a packet but still reports pending unread
data, the receive loop warns, discards the pending data, resets the header
countdown to the full header length, raises nothing, and goes on processing
the remaining bytes. -/
theorem C6_unsolicited_payload_nonfatal :
    ∀ (σ : Type) (D : DispatcherModel σ) (st : RxState σ) (x : Nat),
      st.header_sentinel = 0 → (D.put st.disp x).2 = PacketStatus.RESOLVED_PACKET →
      D.is_loaded (D.put st.disp x).1 = true →
      rxStep D st x = Except.ok
        ({ header_sentinel := HEADER.length,
           disp := D.write_to_discard (D.put st.disp x).1 },
         { fed := true, warned := true }) ∧
      ∀ xs : List Nat,
        rxRun D st (x :: xs) =
          rxRun D { header_sentinel := HEADER.length,
                    disp := D.write_to_discard (D.put st.disp x).1 } xs := by
  intro σ D st x hz hput hl
  have hstep : rxStep D st x = Except.ok
      ({ header_sentinel := HEADER.length,
         disp := D.write_to_discard (D.put st.disp x).1 },
       { fed := true, warned := true }) := by
    rw [rxStep, if_pos hz, hput, if_pos hl]
  refine ⟨hstep, ?_⟩
  intro xs
  rw [rxRun, hstep]

theorem txStep_frames {s : TxState} (ev : TxEvent)
    (h : s.written = s.consumed.map (fun p => HEADER ++ p)) :
    (txStep s ev).written = (txStep s ev).consumed.map (fun p => HEADER ++ p) := by
  cases ev with
  | enqueue p => exact h
  | poll =>
      cases hph : s.phase with
      | idle =>
          cases hq : s.outQueue with
          | nil => simp [txStep, hph, hq, h]
          | cons p rest => simp [txStep, hph, hq, h]
      | awaitingReply => simp [txStep, hph, h]
  | signal =>
      cases hph : s.phase with
      | idle => simp [txStep, hph, h]
      | awaitingReply => simp [txStep, hph, h]

theorem txStep_bound (s : TxState) (ev : TxEvent) :
    (txStep s ev).written.length + txSlack s ≤
      s.written.length + txSlack (txStep s ev) +
        (if ev = TxEvent.signal then 1 else 0) := by
  cases ev with
  | enqueue p => simp [txStep, txSlack]
  | poll =>
      cases hph : s.phase with
      | idle =>
          cases hq : s.outQueue with
          | nil => simp [txStep, hph, hq, txSlack]
          | cons p rest => simp [txStep, hph, hq, txSlack]
      | awaitingReply => simp [txStep, hph, txSlack]
  | signal =>
      cases hph : s.phase with
      | idle => simp [txStep, hph, txSlack]
      | awaitingReply => simp [txStep, hph, txSlack]

theorem txRun_bound : ∀ (evs : List TxEvent) (s : TxState),
    (txRun s evs).written.length + txSlack s ≤
      s.written.length + txSlack (txRun s evs) + countSignals evs := by
  intro evs
  induction evs with
  | nil =>
      intro s
      simp [txRun, countSignals]
  | cons ev evs ih =>
      intro s
      have h1 := ih (txStep s ev)
      have h2 := txStep_bound s ev
      have h3 : countSignals (ev :: evs) =
          (if ev = TxEvent.signal then 1 else 0) + countSignals evs := by
        simp [countSignals, List.countP_cons]
        omega
      rw [txRun, h3]
      omega

theorem txRun_frames : ∀ (evs : List TxEvent) (s : TxState),
    s.written = s.consumed.map (fun p => HEADER ++ p) →
    (txRun s evs).written = (txRun s evs).consumed.map (fun p => HEADER ++ p) := by
  intro evs
  induction evs with
  | nil =>
      intro s h
      exact h
  | cons ev evs ih =>
      intro s h
      rw [txRun]
      exact ih (txStep s ev) (txStep_frames ev h)

/-- C8: a poll in the idle phase writes exactly `HEADER + payload` for the
first queued payload and suspends on the reply condition; while suspended a
poll does nothing; hence along any trace the frames written are exactly the
consumed payloads prefixed with the header, and never more than one frame
beyond the number of turn-finished signals is on the wire. -/
theorem C8_single_outstanding_frame :
    (∀ (s : TxState) (p : List Nat) (rest : List (List Nat)),
        s.phase = TxPhase.idle → s.outQueue = p :: rest →
        txStep s TxEvent.poll =
          { s with phase := TxPhase.awaitingReply, outQueue := rest,
                   consumed := s.consumed ++ [p],
                   written := s.written ++ [HEADER ++ p] }) ∧
    (∀ s : TxState, s.phase = TxPhase.awaitingReply → txStep s TxEvent.poll = s) ∧
    (∀ evs : List TxEvent,
        (txRun TxState.start evs).written =
          (txRun TxState.start evs).consumed.map (fun p => HEADER ++ p) ∧
        (txRun TxState.start evs).written.length ≤ countSignals evs + 1) := by
  refine ⟨?_, ?_, ?_⟩
  · intro s p rest hph hq
    simp [txStep, hph, hq]
  · intro s hph
    simp [txStep, hph]
  · intro evs
    refine ⟨txRun_frames evs TxState.start rfl, ?_⟩
    have h1 := txRun_bound evs TxState.start
    have h2 : txSlack (txRun TxState.start evs) ≤ 1 := by
      cases hph : (txRun TxState.start evs).phase <;> simp [txSlack, hph]
    have h3 : txSlack TxState.start = 0 := rfl
    have h4 : TxState.start.written.length = 0 := rfl
    omega


/-- Witness for C1: the waiter for uid 0 consumes the waiting message, and the
two-request trace delivers successes in uid order. -/
theorem C1_responses_in_issuance_order_witness :
    (stepFn sReady (RemoteEvent.wake 0) = some (wakeStep sReady 0) ∧
     (wakeStep sReady 0).chanIn ≠ sReady.chanIn ∧
     (sReady.exception = none ∧ sReady.activeRequestUid = 0 ∧ sReady.chanIn ≠ [])) ∧
    (run RemoteState.init traceFIFO = some sFifo ∧
     ((consumedLog sFifo.delivered).map Prod.fst =
        List.range (consumedLog sFifo.delivered).length ∧
      (successUids sFifo.delivered).Pairwise (· < ·) ∧
      (sFifo.exception = none → ∀ u ∈ sFifo.pending, sFifo.activeRequestUid ≤ u))) :=
  ⟨⟨by decide, by decide,
    C1_responses_in_issuance_order.1 sReady 0 (wakeStep sReady 0) (by decide) (by decide)⟩,
   by decide,
   C1_responses_in_issuance_order.2 traceFIFO sFifo (by decide)⟩

/-- Witness for C2 at a concrete state and trace. -/
theorem C2_uid_assignment_witness :
    ((new_request sReady [9]).2 = sReady.nextRequestUid ∧
     (new_request sReady [9]).1.nextRequestUid = sReady.nextRequestUid + 1 ∧
     (new_request sReady [9]).1.chanOut = sReady.chanOut ++ [[9]] ∧
     (new_request sReady [9]).1.pending = sReady.pending ++ [sReady.nextRequestUid]) ∧
    (run RemoteState.init traceFIFO = some sFifo ∧
     (sFifo.nextRequestUid = countIssues traceFIFO ∧
      sFifo.pending.Nodup ∧
      (sFifo.delivered.map Prod.fst).Nodup ∧
      (∀ u ∈ sFifo.pending, u ∉ sFifo.delivered.map Prod.fst))) :=
  ⟨C2_uid_assignment.1 sReady [9], by decide,
   C2_uid_assignment.2 traceFIFO sFifo (by decide)⟩

/-- Witness for C3 at concrete poisoning scenarios. -/
theorem C3_poison_permanent_witness :
    (sFaultHead.exception = none ∧
     sFaultHead.chanIn = PipeMsg.pyExc (PyException.generic 4) :: [] ∧
     ((wakeStep sFaultHead 0).exception = some (PyException.generic 4) ∧
      (wakeStep sFaultHead 0).delivered =
        sFaultHead.delivered ++ [(0, Outcome.raisedConsumed (PyException.generic 4))])) ∧
    (stepFn sPoisonPending (RemoteEvent.arrive (PipeMsg.pyBytes [1])) =
       some { sPoisonPending with chanIn := sPoisonPending.chanIn ++ [PipeMsg.pyBytes [1]] } ∧
     sPoisonPending.exception = some (PyException.generic 9) ∧
     ({ sPoisonPending with chanIn := sPoisonPending.chanIn ++ [PipeMsg.pyBytes [1]] }
        : RemoteState).exception = some (PyException.generic 9)) ∧
    (sPoisonPending.exception = some (PyException.generic 9) ∧
     (resume_condition sPoisonPending 1 = true ∧
      (wakeStep sPoisonPending 1).exception = some (PyException.generic 9) ∧
      (wakeStep sPoisonPending 1).delivered =
        sPoisonPending.delivered ++ [(1, Outcome.raisedPoisoned (PyException.generic 9))])) ∧
    (run RemoteState.init tracePoison = some sPoison ∧
     sPoison.exception = some (PyException.generic 7) ∧
     ((∀ p ∈ sPoison.delivered, p.2.isRaised = true → p.2.fault = some (PyException.generic 7)) ∧
      (sPoison.delivered.map Prod.fst).Nodup ∧
      sPoison.delivered.countP (fun p => p.2.isConsumedFault) = 1)) :=
  ⟨⟨rfl, rfl, C3_poison_permanent.1 sFaultHead 0 (PyException.generic 4) [] rfl rfl⟩,
   ⟨by decide, rfl,
    C3_poison_permanent.2.1 sPoisonPending
      { sPoisonPending with chanIn := sPoisonPending.chanIn ++ [PipeMsg.pyBytes [1]] }
      (RemoteEvent.arrive (PipeMsg.pyBytes [1])) (PyException.generic 9) (by decide) rfl⟩,
   ⟨rfl, C3_poison_permanent.2.2.1 sPoisonPending 1 (PyException.generic 9) rfl⟩,
   ⟨by decide, rfl,
    C3_poison_permanent.2.2.2 tracePoison sPoison (PyException.generic 7) (by decide) rfl⟩⟩

/-- Witness for C7: concrete payloads on both shapes of the message union. -/
theorem C7_classification_by_shape_tag_witness :
    isinstanceException (PipeMsg.pyBytes [1, 2, 3]) = false ∧
    isinstanceException (PipeMsg.pyExc (PyException.generic 5)) = true ∧
    (sReady.exception = none ∧ sReady.chanIn = PipeMsg.pyBytes [5] :: [] ∧
     isinstanceException (PipeMsg.pyBytes [5]) = false ∧
     ((wakeStep sReady 0).exception = none ∧
      (wakeStep sReady 0).delivered =
        sReady.delivered ++ [(0, Outcome.success (PipeMsg.pyBytes [5]))])) ∧
    (sFaultHead.exception = none ∧
     sFaultHead.chanIn = PipeMsg.pyExc (PyException.generic 4) :: [] ∧
     (wakeStep sFaultHead 0).delivered =
       sFaultHead.delivered ++ [(0, Outcome.raisedConsumed (PyException.generic 4))]) :=
  ⟨C7_classification_by_shape_tag.1 [1, 2, 3],
   C7_classification_by_shape_tag.2.1 (PyException.generic 5),
   ⟨rfl, rfl, rfl,
    C7_classification_by_shape_tag.2.2.1 sReady 0 (PipeMsg.pyBytes [5]) [] rfl rfl rfl⟩,
   ⟨rfl, rfl,
    C7_classification_by_shape_tag.2.2.2 sFaultHead 0 (PyException.generic 4) [] rfl rfl⟩⟩

/-- Witness for C9: issuing on a poisoned link still succeeds, and the stored
fault is raised only at the later resume of the new awaiter. -/
theorem C9_new_request_never_raises_witness :
    ((new_request sPoisonPending [4]).1.exception = sPoisonPending.exception ∧
     (new_request sPoisonPending [4]).1.chanOut = sPoisonPending.chanOut ++ [[4]] ∧
     (new_request sPoisonPending [4]).1.nextRequestUid = sPoisonPending.nextRequestUid + 1 ∧
     (new_request sPoisonPending [4]).2 = sPoisonPending.nextRequestUid ∧
     (new_request sPoisonPending [4]).1.delivered = sPoisonPending.delivered) ∧
    (sPoisonPending.exception = some (PyException.generic 9) ∧
     (wakeStep (new_request sPoisonPending [4]).1 (new_request sPoisonPending [4]).2).delivered =
       sPoisonPending.delivered ++
         [(sPoisonPending.nextRequestUid, Outcome.raisedPoisoned (PyException.generic 9))]) := by
  have h := C9_new_request_never_raises sPoisonPending [4]
  exact ⟨⟨h.1, h.2.1, h.2.2.1, h.2.2.2.1, h.2.2.2.2.1⟩, rfl,
    h.2.2.2.2.2 (PyException.generic 9) rfl⟩

/-- Witness for C10 at concrete poisoned and clean states. -/
theorem C10_poisoned_never_reads_witness :
    (sPoisonPending.exception = some (PyException.generic 9) ∧
     (wakeStep sPoisonPending 1).chanIn = sPoisonPending.chanIn) ∧
    (stepFn sReady (RemoteEvent.wake 0) = some (wakeStep sReady 0) ∧
     (wakeStep sReady 0).chanIn ≠ sReady.chanIn ∧
     sReady.exception = none) ∧
    (run RemoteState.init tracePoison = some sPoison ∧
     sPoison.delivered.countP (fun p => p.2.isConsumedFault) ≤ 1) :=
  ⟨⟨rfl, C10_poisoned_never_reads.1 sPoisonPending 1 (PyException.generic 9) rfl⟩,
   ⟨by decide, by decide,
    C10_poisoned_never_reads.2.1 sReady (wakeStep sReady 0) 0 (by decide) (by decide)⟩,
   by decide,
   C10_poisoned_never_reads.2.2 tracePoison sPoison (by decide)⟩

/-- Witness for C4: concrete bytes against the all-dropping dispatcher double. -/
theorem C4_header_countdown_witness :
    (({ header_sentinel := 2, disp := () } : RxState Unit).header_sentinel ≠ 0 ∧
     rxStep dropAllDispatcher { header_sentinel := 2, disp := () } 0xff = Except.ok
       ({ header_sentinel := 1, disp := () }, { fed := false, warned := false }) ∧
     rxStep dropAllDispatcher { header_sentinel := 2, disp := () } 0 = Except.ok
       ({ header_sentinel := 4, disp := () }, { fed := false, warned := false })) ∧
    (rxStep dropAllDispatcher { header_sentinel := 2, disp := () } 0xff = Except.ok
       ({ header_sentinel := 1, disp := () }, { fed := false, warned := false }) ∧
     (({ fed := false, warned := false } : RxEffect).fed = true ↔
      ({ header_sentinel := 2, disp := () } : RxState Unit).header_sentinel = 0)) ∧
    (rxStep dropAllDispatcher { header_sentinel := 0, disp := () } 1 =
       Except.error corruptedPacketError ∧
     ({ header_sentinel := 0, disp := () } : RxState Unit).header_sentinel = 0) := by
  refine ⟨⟨by decide, ?_, ?_⟩, ⟨rfl, ?_⟩, rfl, ?_⟩
  · have h := C4_header_countdown.2.2.1 Unit dropAllDispatcher
      { header_sentinel := 2, disp := () } 0xff (by decide)
    exact h.trans rfl
  · have h := C4_header_countdown.2.2.1 Unit dropAllDispatcher
      { header_sentinel := 2, disp := () } 0 (by decide)
    exact h.trans rfl
  · exact C4_header_countdown.2.2.2.1 Unit dropAllDispatcher
      { header_sentinel := 2, disp := () } 0xff
      { header_sentinel := 1, disp := () } { fed := false, warned := false } rfl
  · exact C4_header_countdown.2.2.2.2 Unit dropAllDispatcher
      { header_sentinel := 0, disp := () } 1 corruptedPacketError rfl

/-- Witness for C5: a dropped byte kills the receive run; the supervisor
relays the concrete fault and cancels the transmit loop. -/
theorem C5_dropped_is_fatal_witness :
    (({ header_sentinel := 0, disp := () } : RxState Unit).header_sentinel = 0 ∧
     (dropAllDispatcher.put () 1).2 = PacketStatus.DROPPED_PACKET ∧
     rxRun dropAllDispatcher { header_sentinel := 0, disp := () } [1, 2, 3] =
       Except.error corruptedPacketError) ∧
    superviseOutcome
        { done := [(LoopId.handle_rx, some (PyException.generic 3))],
          pend := [LoopId.handle_tx] } =
      ([PipeMsg.pyExc (PyException.generic 3)], [LoopId.handle_tx]) :=
  ⟨⟨rfl, rfl,
    C5_dropped_is_fatal.1 Unit dropAllDispatcher { header_sentinel := 0, disp := () }
      1 rfl rfl [2, 3]⟩,
   C5_dropped_is_fatal.2 (PyException.generic 3)⟩

/-- Witness for C6: a resolved byte with pending unread data warns, discards
and resumes parsing, concretely. -/
theorem C6_unsolicited_payload_nonfatal_witness :
    ({ header_sentinel := 0, disp := false } : RxState Bool).header_sentinel = 0 ∧
    (loadedDispatcher.put false 9).2 = PacketStatus.RESOLVED_PACKET ∧
    loadedDispatcher.is_loaded (loadedDispatcher.put false 9).1 = true ∧
    (rxStep loadedDispatcher { header_sentinel := 0, disp := false } 9 = Except.ok
       ({ header_sentinel := HEADER.length,
          disp := loadedDispatcher.write_to_discard (loadedDispatcher.put false 9).1 },
        { fed := true, warned := true }) ∧
     rxRun loadedDispatcher { header_sentinel := 0, disp := false } (9 :: [7]) =
       rxRun loadedDispatcher
         { header_sentinel := HEADER.length,
           disp := loadedDispatcher.write_to_discard (loadedDispatcher.put false 9).1 } [7]) := by
  have h := C6_unsolicited_payload_nonfatal Bool loadedDispatcher
    { header_sentinel := 0, disp := false } 9 rfl rfl rfl
  exact ⟨rfl, rfl, rfl, h.1, h.2 [7]⟩

/-- Witness for C8: the transmit loop at concrete states writes the framed
head payload while idle and ignores polls while awaiting the reply. -/
theorem C8_single_outstanding_frame_witness :
    (({ phase := TxPhase.idle, outQueue := [[1, 2]], consumed := [], written := [] }
        : TxState).phase = TxPhase.idle ∧
     ({ phase := TxPhase.idle, outQueue := [[1, 2]], consumed := [], written := [] }
        : TxState).outQueue = [1, 2] :: [] ∧
     txStep { phase := TxPhase.idle, outQueue := [[1, 2]], consumed := [], written := [] }
         TxEvent.poll =
       { phase := TxPhase.awaitingReply, outQueue := [], consumed := [[1, 2]],
         written := [HEADER ++ [1, 2]] }) ∧
    (({ phase := TxPhase.awaitingReply, outQueue := [[3]], consumed := [[1, 2]],
        written := [HEADER ++ [1, 2]] } : TxState).phase = TxPhase.awaitingReply ∧
     txStep { phase := TxPhase.awaitingReply, outQueue := [[3]], consumed := [[1, 2]],
              written := [HEADER ++ [1, 2]] } TxEvent.poll =
       { phase := TxPhase.awaitingReply, outQueue := [[3]], consumed := [[1, 2]],
         written := [HEADER ++ [1, 2]] }) ∧
    ((txRun TxState.start
        [TxEvent.enqueue [1], TxEvent.enqueue [2], TxEvent.poll, TxEvent.poll,
         TxEvent.signal, TxEvent.poll]).written =
       (txRun TxState.start
        [TxEvent.enqueue [1], TxEvent.enqueue [2], TxEvent.poll, TxEvent.poll,
         TxEvent.signal, TxEvent.poll]).consumed.map (fun p => HEADER ++ p) ∧
     (txRun TxState.start
        [TxEvent.enqueue [1], TxEvent.enqueue [2], TxEvent.poll, TxEvent.poll,
         TxEvent.signal, TxEvent.poll]).written.length ≤
       countSignals
         [TxEvent.enqueue [1], TxEvent.enqueue [2], TxEvent.poll, TxEvent.poll,
          TxEvent.signal, TxEvent.poll] + 1) := by
  refine ⟨⟨rfl, rfl, ?_⟩, ⟨rfl, ?_⟩, ?_⟩
  · have h := C8_single_outstanding_frame.1
      { phase := TxPhase.idle, outQueue := [[1, 2]], consumed := [], written := [] }
      [1, 2] [] rfl rfl
    exact h.trans (by decide)
  · exact C8_single_outstanding_frame.2.1
      { phase := TxPhase.awaitingReply, outQueue := [[3]], consumed := [[1, 2]],
        written := [HEADER ++ [1, 2]] } rfl
  · exact C8_single_outstanding_frame.2.2
      [TxEvent.enqueue [1], TxEvent.enqueue [2], TxEvent.poll, TxEvent.poll,
       TxEvent.signal, TxEvent.poll]

end ShellTools
